import Mathlib

/-!
Shallow embedding of the autojs browser-automation extension:
the instruction retry runner, the Executor, the ElementManager,
the background-script instruction queue, the Wait instruction, and
the dispatcher-side connection registry.

Machine numbers are modelled as `Int`/`Nat`/`Rat`; fallible code
returns `Except`; mutable state is passed explicitly.
-/

/-- Result of executing one instruction
(`ExecutionResult` in src/types/Instructions.ts). -/
structure ExecutionResult where
  instructionID : String
  success : Bool
  error : Option String
  duration : Int
  data : Option String
deriving Repr, DecidableEq

/-- JS `x || d` on numbers: `x` when non-zero (truthy), else `d`. -/
def jsOrInt (x d : Int) : Int :=
  if x = 0 then d else x

/-- Shared retry loop body.  `body i` is attempt number `i`;
`remaining` is the number of further attempts allowed after the
current one.  Returns the outcome, the number of attempts made, and
the list of inter-attempt waits in milliseconds (the source waits one
second, `Delay(1)` resp. `wait(1)`, before each reattempt). -/
def retryLoop (body : Nat → Except String α) : Nat → Nat → Except String α × Nat × List Nat
  | i, 0 =>
    match body i with
    | .ok a => (.ok a, 1, [])
    | .error e => (.error e, 1, [])
  | i, remaining + 1 =>
    match body i with
    | .ok a => (.ok a, 1, [])
    | .error _ =>
      let rest := retryLoop body (i + 1) remaining
      (rest.1, rest.2.1 + 1, 1000 :: rest.2.2)

/-- `BaseInstructionImpl.ExecuteWithRetry` (entrypoints/background.ts and
the unnamed types file): `maxAttempts = Math.max(1, this.retry || 1)`,
attempts numbered 1..maxAttempts, 1-second delay before each
non-final reattempt, last error propagated. -/
def ExecuteWithRetry (retry : Int) (body : Nat → Except String α) : Except String α × Nat × List Nat :=
  let maxAttempts := max 1 (jsOrInt retry 1)
  retryLoop body 1 (maxAttempts.toNat - 1)

/-- `BaseInstructionImpl.executeWithRetry` (src/types/Instructions.ts):
`for (let i = 0; i <= this.retry; i++)`, 1-second delay when
`i < retry`; when the loop makes no iteration (negative retry) it
throws the fallback error. -/
def executeWithRetryTS (retry : Int) (body : Nat → Except String α) : Except String α × Nat × List Nat :=
  if retry < 0 then
    (.error "Execution failed after retries", 0, [])
  else
    retryLoop body 0 retry.toNat

deriving instance DecidableEq for Except

/-- An instruction as seen by the Executor (src/core, unnamed part):
its `type` and `id` fields plus the behaviour of `execute()`, which
either resolves to an `ExecutionResult` or rejects with an error
message. -/
structure Instr where
  type : String
  id : String
  outcome : Except String ExecutionResult
deriving Repr, DecidableEq

/-- The failure result `executeAll`/`executeInstruction` build when
`instruction.execute()` throws: `success: false`, the error message,
`duration: 0`. -/
def errorResultOf (i : Instr) (e : String) : ExecutionResult :=
  { instructionID := i.id, success := false, error := some e, duration := 0, data := none }

/-- `Executor.executeAll` (results are reset first, `isRunning` is set
and never cleared from inside the sequential loop): iterate in order,
append each instruction's result (converting a thrown error into a
failure result), and stop immediately after a successful instruction
of type `navigate`.  Returns the results list together with the list
of instructions that were actually executed. -/
def executeAll : List Instr → List ExecutionResult × List Instr
  | [] => ([], [])
  | i :: rest =>
    match i.outcome with
    | .ok r =>
      if r.success ∧ i.type = "navigate" then
        ([r], [i])
      else
        let next := executeAll rest
        (r :: next.1, i :: next.2)
    | .error e =>
      let next := executeAll rest
      (errorResultOf i e :: next.1, i :: next.2)

/-- A concrete successful navigate result, for the spec's
[Navigate(success), Click] scenario. -/
def sampleNavResult : ExecutionResult :=
  { instructionID := "n1", success := true, error := none, duration := 5, data := none }

/-- A concrete Navigate instruction whose execution succeeds. -/
def sampleNav : Instr :=
  { type := "navigate", id := "n1", outcome := .ok sampleNavResult }

/-- A concrete Click instruction (would succeed if it ever ran). -/
def sampleClick : Instr :=
  { type := "click", id := "c1",
    outcome := .ok { instructionID := "c1", success := true, error := none,
                     duration := 3, data := none } }

/-- `Executor.getSuccessCount` on the possibly sparse results array
(`none` is a hole): JS `Array.prototype.filter` skips holes, so only
filled slots are counted. -/
def getSuccessCount (results : List (Option ExecutionResult)) : Nat :=
  (results.reduceOption.filter (fun r => r.success)).length

/-- `Executor.getFailureCount`: filled slots with `success` false
(JS `filter` skips holes). -/
def getFailureCount (results : List (Option ExecutionResult)) : Nat :=
  (results.reduceOption.filter (fun r => !r.success)).length

/-- `Executor.getTotalDuration`: sum of the durations of the filled
slots (JS `reduce` skips holes). -/
def getTotalDuration (results : List (Option ExecutionResult)) : Int :=
  (results.reduceOption.map (fun r => r.duration)).sum

/-- The record returned by `Executor.getStatistics`. -/
structure Statistics where
  total : Nat
  success : Nat
  failure : Nat
  successRate : Rat
  totalDuration : Int
  averageDuration : Rat
deriving Repr, DecidableEq

/-- `Executor.getStatistics`: derived on demand from the possibly
sparse results array.  `total` is the JS array `length`, which counts
holes, while the success/failure/duration aggregates skip them; the
two ratios fall back to 0 when `total` is 0. -/
def getStatistics (results : List (Option ExecutionResult)) : Statistics :=
  let total := results.length
  let success := getSuccessCount results
  let failure := getFailureCount results
  let totalDuration := getTotalDuration results
  { total := total
    success := success
    failure := failure
    successRate := if total > 0 then ((success : Rat) / (total : Rat)) * 100 else 0
    totalDuration := totalDuration
    averageDuration := if total > 0 then (totalDuration : Rat) / (total : Rat) else 0 }

/-- The Executor's mutable state (src/core Executor class).  The
results array can contain holes after out-of-band single-instruction
execution, so slots are `Option`-valued; `executeAll` only ever
appends filled slots. -/
structure ExecutorState where
  instructions : List Instr
  results : List (Option ExecutionResult)
  isRunning : Bool
  currentIndex : Nat
deriving Repr, DecidableEq

/-- JS array index assignment `a[i] = v`: overwrite in place,
extending the array with holes (`undefined`) when `i ≥ a.length`. -/
def writeSlot (a : List (Option ExecutionResult)) (i : Nat) (v : ExecutionResult) :
    List (Option ExecutionResult) :=
  (a ++ List.replicate (i + 1 - a.length) none).set i (some v)

/-- `Executor.executeInstruction(index)`: out-of-range indices return
`null` without touching any state; an in-range index runs that single
instruction and overwrites its result slot. -/
def executeInstruction (s : ExecutorState) (index : Int) :
    Option ExecutionResult × ExecutorState :=
  if index < 0 ∨ index ≥ (s.instructions.length : Int) then
    (none, s)
  else
    match s.instructions.get? index.toNat with
    | none => (none, s)
    | some i =>
      let r := match i.outcome with
        | .ok r => r
        | .error e => errorResultOf i e
      (some r, { s with results := writeSlot s.results index.toNat r })

/-- The results array reached by calling `executeInstruction(1)` on a
fresh executor holding two instructions: the assignment
`this.results[1] = result` leaves a hole at slot 0. -/
def sparseResults : List (Option ExecutionResult) :=
  (executeInstruction
    { instructions :=
        [{ type := "click", id := "a",
           outcome := .ok { instructionID := "a", success := true, error := none,
                            duration := 1, data := none } },
         { type := "click", id := "b",
           outcome := .ok { instructionID := "b", success := true, error := none,
                            duration := 1, data := none } }],
      results := [], isRunning := false, currentIndex := 0 } 1).2.results

/-- The bounding rectangle returned by `GetBoundingRect`. -/
structure BoundingRect where
  left : Rat
  top : Rat
  width : Rat
  height : Rat
deriving Repr, DecidableEq

/-- `ClickInstruction.Execute` click-point computation
(entrypoints/background.ts):
`x = rect.left + rect.width / 2 + this.offsetX`,
`y = rect.top + rect.height / 2 + this.offsetY`. -/
def clickPoint (rect : BoundingRect) (offsetX offsetY : Rat) : Rat × Rat :=
  (rect.left + rect.width / 2 + offsetX, rect.top + rect.height / 2 + offsetY)

/-- The center of a bounding box, as the spec words it. -/
def boxCenter (rect : BoundingRect) : Rat × Rat :=
  (rect.left + rect.width / 2, rect.top + rect.height / 2)

/-- Ordered association list standing in for a JS `Map` (iteration
order is insertion order). -/
def assocLookup : List (String × α) → String → Option α
  | [], _ => none
  | p :: rest, k => if p.1 = k then some p.2 else assocLookup rest k

/-- JS `Map.set`: overwrite in place when the key is present
(preserving its position), otherwise append. -/
def assocSet : List (String × α) → String → α → List (String × α)
  | [], k, v => [(k, v)]
  | p :: rest, k, v => if p.1 = k then (k, v) :: rest else p :: assocSet rest k v

/-- Mutation of the value stored under a key, when present. -/
def assocUpdate (f : α → α) : List (String × α) → String → List (String × α)
  | [], _ => []
  | p :: rest, k => (if p.1 = k then (p.1, f p.2) else p) :: assocUpdate f rest k

/-- An element descriptor as stored by the ElementManager
(src/types/Element.ts fields used for bookkeeping; an absent
`parentName` is the empty string, matching JS falsiness). -/
structure ElementObj where
  name : String
  description : String
  selector : String
  selectorType : String
  parentName : String
  childrenNames : List String
  relatedNames : List String
deriving Repr, DecidableEq

/-- JS `array.push` guarded by `includes`. -/
def pushIfAbsent (xs : List String) (x : String) : List String :=
  if x ∈ xs then xs else xs ++ [x]

/-- `ElementManager.updateRelationships(element)`: push the element's
name onto a present parent's `childrenNames` (if not already there),
set `parentName` on each present child, and push the name onto each
present related element's `relatedNames` (if not already there).
Only the element map is touched, never the `relationships` map. -/
def updateRelationships (m : List (String × ElementObj)) (e : ElementObj) :
    List (String × ElementObj) :=
  let m1 := if e.parentName = "" then m
    else assocUpdate
      (fun parent => { parent with childrenNames := pushIfAbsent parent.childrenNames e.name })
      m e.parentName
  let m2 := e.childrenNames.foldl
    (fun acc childName => assocUpdate (fun c => { c with parentName := e.name }) acc childName) m1
  e.relatedNames.foldl
    (fun acc relName =>
      assocUpdate (fun rel => { rel with relatedNames := pushIfAbsent rel.relatedNames e.name })
        acc relName) m2

/-- The ElementManager's state: the element map and the (separately
kept) relationship map. -/
structure ElementManagerState where
  elements : List (String × ElementObj)
  relationships : List (String × List String)
deriving Repr, DecidableEq

/-- `ElementManager.setElement`: an element without a name is rejected
before anything is touched; otherwise the element is stored under its
name and relationship links are updated. -/
def setElement (s : ElementManagerState) (e : ElementObj) : ElementManagerState :=
  if e.name = "" then s
  else { s with elements := updateRelationships (assocSet s.elements e.name e) e }

/-- `ElementManager.getElement`. -/
def getElement (s : ElementManagerState) (name : String) : Option ElementObj :=
  assocLookup s.elements name

/-- An element whose links mention its own name; `setElement` on such
an element mutates the object it has just stored. -/
def selfLinked (e : ElementObj) : Prop :=
  e.parentName = e.name ∨ e.name ∈ e.childrenNames ∨ e.name ∈ e.relatedNames

instance (e : ElementObj) : Decidable (selfLinked e) := by
  unfold selfLinked
  infer_instance

/-- Storage keys used by the background script. -/
def keyInstructions : String := "instructions"

/-- The `tasks` storage key. -/
def keyTasks : String := "tasks"

/-- A queued instruction entry (`Instruction` interface in
entrypoints/background.ts): target tab index, opaque payload, and
creation timestamp. -/
structure QueuedInstruction where
  index : Int
  instruction : String
  created_at : Int
deriving Repr, DecidableEq

/-- The extension's local storage, restricted to the keys the
instruction manager touches. -/
structure LocalStorage where
  instructions : List QueuedInstruction
  tasks : List String
deriving Repr, DecidableEq

/-- The object returned by `browser.storage.local.get(keys)`: only the
requested keys are populated; the rest read as `undefined`. -/
structure StorageGetResult where
  instructions : Option (List QueuedInstruction)
  tasks : Option (List String)
deriving Repr, DecidableEq

/-- `browser.storage.local.get`. -/
def storageGet (s : LocalStorage) (keys : List String) : StorageGetResult :=
  { instructions := if keyInstructions ∈ keys then some s.instructions else none
    tasks := if keyTasks ∈ keys then some s.tasks else none }

/-- `addInstructions` (entrypoints/background.ts): read the stored
list, append the new instructions, store it back, and return how many
were added. -/
def addInstructions (s : LocalStorage) (newInstructions : List QueuedInstruction) :
    Int × LocalStorage :=
  let result := storageGet s [keyInstructions]
  let stored := result.instructions.getD []
  let updated := stored ++ newInstructions
  ((newInstructions.length : Int), { s with instructions := updated })

/-- `getInstructionsByIndexAndDelete` (entrypoints/background.ts),
embedded as written: the storage read requests the `tasks` key but the
code then reads `result.instructions`, filters the matching entries
and, when any matched, stores back the rest. -/
def getInstructionsByIndexAndDelete (s : LocalStorage) (index : Int) :
    List QueuedInstruction × LocalStorage :=
  let result := storageGet s [keyTasks]
  let stored := result.instructions.getD []
  let matched := stored.filter (fun i => i.index = index)
  if matched.length > 0 then
    (matched, { s with instructions := stored.filter (fun i => ¬i.index = index) })
  else
    (matched, s)

/-- `deleteInstructionsByCreatedAt` (entrypoints/background.ts): keep
only entries with `now - created_at < elapsedTime`, store the
remainder back when anything was dropped, and return the number
removed. -/
def deleteInstructionsByCreatedAt (s : LocalStorage) (now : Int) (elapsedTime : Int) :
    Int × LocalStorage :=
  let result := storageGet s [keyInstructions]
  let stored := result.instructions.getD []
  let remaining := stored.filter (fun i => now - i.created_at < elapsedTime)
  let removed := (stored.length : Int) - (remaining.length : Int)
  if remaining.length < stored.length then
    (removed, { s with instructions := remaining })
  else
    (removed, s)

/-- `BaseInstructionImpl.Validate`: type and id must be non-empty. -/
def baseValidate (type id : String) : Bool :=
  if type = "" || id = "" then false else true

/-- `WaitInstruction.validate`: the base check plus a wait type and a
defined value. -/
def waitInstrValidate (type id waitType : String) (valueDefined : Bool) : Bool :=
  if !baseValidate type id then false
  else if waitType = "" || !valueDefined then false
  else true

/-- The `network` branch of `WaitInstruction.Execute`
(entrypoints/background.ts): each poll observes the number of
in-flight resource entries; a poll seeing zero ends the wait
successfully, and exhausting the time budget (the list) logs a
warning but also returns success. -/
def waitNetworkBody (polls : List Nat) : Except String Unit :=
  match polls with
  | [] => .ok ()
  | p :: rest => if p = 0 then .ok () else waitNetworkBody rest

/-- Configuration of a Wait instruction in `network` mode:
the shared fields that its `Execute` consults. -/
structure WaitNetworkConfig where
  type : String
  id : String
  retry : Int
  valueDefined : Bool
deriving Repr, DecidableEq

/-- `WaitInstruction.Execute` for `network` mode: validation failure is
caught as a failure result; otherwise the polling body runs under
`ExecuteWithRetry` (`polls a` being the observations of attempt `a`),
and a resolved retry call yields `success: true`.  `dur` is the
elapsed wall-clock duration. -/
def WaitExecuteNetwork (c : WaitNetworkConfig) (polls : Nat → List Nat) (dur : Int) :
    ExecutionResult :=
  if !waitInstrValidate c.type c.id ("network") c.valueDefined then
    { instructionID := c.id, success := false,
      error := some ("Invalid wait instruction"), duration := dur, data := none }
  else
    match (ExecuteWithRetry c.retry (fun a => waitNetworkBody (polls a))).1 with
    | .ok _ =>
      { instructionID := c.id, success := true, error := none, duration := dur,
        data := some ("network") }
    | .error e =>
      { instructionID := c.id, success := false, error := some e, duration := dur,
        data := none }

/-- Modelled from the spec: the dispatcher-side ConnectionRegistry
(§4.4) has no implementation under src/ — only the spec describes it.
A ConnectionRecord holds { targetIndex, connectedAtMillis (earliest
observed, preserved across re-registration), lastSeenAtMillis (updated
on every observed activity), documentURL }. -/
structure ConnectionRecord where
  index : Int
  connectedAt : Int
  lastSeenAt : Int
  url : String
deriving Repr, DecidableEq

/-- Modelled from the spec: the registry is a map from target identity
to its ConnectionRecord. -/
abbrev ConnRegistry : Type := List (String × ConnectionRecord)

/-- Modelled from the spec: `record(target)` upserts, preserving the
earliest `connectedAt` and updating `lastSeenAt`, index and url. -/
def recordConn (reg : ConnRegistry) (t : String) (idx : Int) (now : Int) (url : String) :
    ConnRegistry :=
  match assocLookup reg t with
  | some r => assocSet reg t { r with index := idx, lastSeenAt := now, url := url }
  | none => reg ++ [(t, { index := idx, connectedAt := now, lastSeenAt := now, url := url })]

/-- Modelled from the spec: `remove(target)`. -/
def removeConn (reg : ConnRegistry) (t : String) : ConnRegistry :=
  reg.filter (fun p => ¬p.1 = t)

/-- Modelled from the spec: `isConnected(target)`. -/
def isConnected (reg : ConnRegistry) (t : String) : Bool :=
  (assocLookup reg t).isSome

/-- Modelled from the spec: the per-target listing (`listConnected` /
`statsAll`) enumerates the registered targets. -/
def statsAllConn (reg : ConnRegistry) : List String :=
  reg.map (fun p => p.1)


/-- On a body that fails at every attempt, `retryLoop` makes
`remaining + 1` attempts, waits 1000 ms before each reattempt and
propagates the error of the final attempt. -/
theorem retryLoop_allFail (errs : Nat → String) (i remaining : Nat) :
    retryLoop (fun j => (.error (errs j) : Except String α)) i remaining =
      (.error (errs (i + remaining)), remaining + 1, List.replicate remaining 1000) := by
  induction remaining generalizing i with
  | zero => simp [retryLoop]
  | succ n ih =>
      have hidx : i + 1 + n = i + (n + 1) := by omega
      simp only [retryLoop, ih (i + 1), List.replicate_succ, hidx]

/-- A body that succeeds on its current attempt ends the retry loop at
once: one attempt, no waits. -/
lemma retryLoop_ok (body : Nat → Except String α) (i remaining : Nat) (a : α)
    (h : body i = .ok a) : retryLoop body i remaining = (.ok a, 1, []) := by
  cases remaining <;> simp [retryLoop, h]

/-- The network-wait polling body never produces an error. -/
lemma waitNetworkBody_ok (polls : List Nat) : waitNetworkBody polls = .ok () := by
  induction polls with
  | nil => rfl
  | cons p rest ih => by_cases h : p = 0 <;> simp [waitNetworkBody, h, ih]

/-- `jsOrInt`'s truthiness dance collapses under `max 1`. -/
lemma max_one_jsOrInt (r : Int) : max 1 (jsOrInt r 1) = max 1 r := by
  unfold jsOrInt
  split
  · omega
  · rfl

/-- Splitting a list by a boolean predicate preserves its length. -/
lemma length_filter_add_length_filter_not (l : List ExecutionResult)
    (p : ExecutionResult → Bool) :
    (l.filter p).length + (l.filter (fun x => !p x)).length = l.length := by
  induction l with
  | nil => rfl
  | cons a l ih => by_cases h : p a <;> simp [List.filter_cons, h] <;> omega

/-- A hole-free array — every slot filled — collapses to its list of
values under the hole-skipping traversal. -/
lemma reduceOption_map_some (l : List α) : (l.map some).reduceOption = l := by
  induction l with
  | nil => rfl
  | cons a l ih => simp [List.reduceOption, List.filterMap_cons, ih]

/-- Looking up the key just set. -/
lemma assocLookup_set_self (m : List (String × α)) (k : String) (v : α) :
    assocLookup (assocSet m k v) k = some v := by
  induction m with
  | nil => simp [assocSet, assocLookup]
  | cons p rest ih =>
      by_cases h : p.1 = k <;> simp [assocSet, assocLookup, h, ih]

/-- Setting one key leaves lookups of other keys unchanged. -/
lemma assocLookup_set_ne (m : List (String × α)) (k n : String) (v : α) (h : k ≠ n) :
    assocLookup (assocSet m k v) n = assocLookup m n := by
  induction m with
  | nil => simp [assocSet, assocLookup, h]
  | cons p rest ih =>
      unfold assocSet
      by_cases hp : p.1 = k
      · rw [if_pos hp]
        simp [assocLookup, h, hp]
      · rw [if_neg hp]
        simp only [assocLookup, ih]

/-- Updating one key leaves lookups of other keys unchanged. -/
lemma assocLookup_update_ne (f : α → α) (m : List (String × α)) (k n : String) (h : k ≠ n) :
    assocLookup (assocUpdate f m k) n = assocLookup m n := by
  induction m with
  | nil => rfl
  | cons p rest ih =>
      unfold assocUpdate
      by_cases hp : p.1 = k
      · rw [if_pos hp]
        have hpn : ¬p.1 = n := by rw [hp]; exact h
        simp [assocLookup, hpn, hp, h, ih]
      · rw [if_neg hp]
        simp only [assocLookup, ih]

/-- A fold of per-key updates over keys not containing `n` leaves the
lookup of `n` unchanged. -/
lemma assocLookup_foldl_update (g : α → α) (names : List String)
    (m : List (String × α)) (n : String) (h : n ∉ names) :
    assocLookup (names.foldl (fun acc k => assocUpdate g acc k) m) n = assocLookup m n := by
  induction names generalizing m with
  | nil => rfl
  | cons a names ih =>
      simp only [List.mem_cons, not_or] at h
      rw [List.foldl_cons, ih _ h.2, assocLookup_update_ne _ _ _ _ (fun hc => h.1 hc.symm)]

/-- A key absent from the front part of an appended list is looked up
in the back part. -/
lemma assocLookup_append_of_none (m m2 : List (String × α)) (k : String)
    (h : assocLookup m k = none) :
    assocLookup (m ++ m2) k = assocLookup m2 k := by
  induction m with
  | nil => rfl
  | cons p rest ih =>
      by_cases hp : p.1 = k
      · simp [assocLookup, hp] at h
      · simp [assocLookup, hp] at h ⊢
        exact ih h

/-- A key present in the front part of an appended list keeps its
binding. -/
lemma assocLookup_append_of_some (m m2 : List (String × α)) (k : String) (v : α)
    (h : assocLookup m k = some v) :
    assocLookup (m ++ m2) k = some v := by
  induction m with
  | nil => simp [assocLookup] at h
  | cons p rest ih =>
      by_cases hp : p.1 = k <;> simp [assocLookup, hp] at h ⊢
      · exact h
      · exact ih h

/-- Filtering a key out of an association list removes its binding. -/
lemma assocLookup_filter_self (m : List (String × α)) (t : String) :
    assocLookup (m.filter (fun p => ¬p.1 = t)) t = none := by
  induction m with
  | nil => rfl
  | cons p rest ih =>
      simp only [decide_not] at ih ⊢
      rw [List.filter_cons]
      by_cases hp : p.1 = t
      · simp [hp, ih]
      · simp [hp, assocLookup, ih]

/-- C1 (amended): on a body that fails at every attempt, the retry
runner `ExecuteWithRetry` (entrypoints/background.ts and the unnamed
instruction types file) executes the body exactly `max 1 r` times,
waits 1 second (1000 ms) before each non-final reattempt, and
propagates the error of the final attempt; the retry runner
`executeWithRetry` in src/types/Instructions.ts instead executes the
body exactly `r + 1` times (for `r ≥ 0`), with the same 1-second
inter-attempt waits and last-error propagation. -/
theorem c1_retry_attempts_amended (r : Int) (errs : Nat → String) (h : 0 ≤ r) :
    ExecuteWithRetry r (fun i => (.error (errs i) : Except String Unit)) =
      (.error (errs ((max 1 r).toNat)), (max 1 r).toNat,
        List.replicate ((max 1 r).toNat - 1) 1000) ∧
    executeWithRetryTS r (fun i => (.error (errs i) : Except String Unit)) =
      (.error (errs r.toNat), r.toNat + 1, List.replicate r.toNat 1000) := by
  constructor
  · unfold ExecuteWithRetry
    rw [max_one_jsOrInt, retryLoop_allFail]
    have h1 : (1 : Int) ≤ max 1 r := le_max_left _ _
    have hnat : 1 ≤ (max 1 r).toNat := by omega
    have e1 : 1 + ((max 1 r).toNat - 1) = (max 1 r).toNat := by omega
    have e2 : (max 1 r).toNat - 1 + 1 = (max 1 r).toNat := by omega
    rw [e1, e2]
  · unfold executeWithRetryTS
    rw [if_neg (by omega), retryLoop_allFail]
    simp

/-- C1 counterexample: with retry count 2 and a permanently failing
body, `executeWithRetry` of src/types/Instructions.ts executes the
body 3 times, not `max 1 2 = 2` times as the claim states. -/
theorem c1_retry_attempts_counterexample :
    (executeWithRetryTS 2 (fun _ => (.error ("boom") : Except String Unit))).2.1 ≠ max 1 2 := by
  decide

/-- C1 witness: the amended statement evaluated at retry count 2. -/
theorem c1_retry_attempts_witness :
    ExecuteWithRetry 2 (fun _ => (.error ("e") : Except String Unit)) =
      (.error ("e"), 2, [1000]) ∧
    executeWithRetryTS 2 (fun _ => (.error ("e") : Except String Unit)) =
      (.error ("e"), 3, [1000, 1000]) := by
  have h := c1_retry_attempts_amended 2 (fun _ => "e") (by decide)
  simpa using h

/-- C3: as written, `getInstructionsByIndexAndDelete` requests the
`tasks` storage key and then reads `result.instructions`, which is
therefore always `undefined`; so for every storage state and every
target index it returns the empty list and leaves the storage (and in
particular the queued instructions of that target) untouched — it
never drains anything. -/
theorem c3_drain_is_noop (s : LocalStorage) (index : Int) :
    getInstructionsByIndexAndDelete s index = ([], s) := by
  have hne : ¬keyInstructions = keyTasks := by decide
  simp [getInstructionsByIndexAndDelete, storageGet, hne]

/-- C6: a sweep with `maxAge = 0` removes every queue entry whose age
is non-negative — with all entries created no later than `now`, all of
them — and returns the total number removed. -/
theorem c6_sweep_removes_all (s : LocalStorage) (now : Int)
    (hage : ∀ i ∈ s.instructions, i.created_at ≤ now) :
    deleteInstructionsByCreatedAt s now 0 =
      ((s.instructions.length : Int), { s with instructions := [] }) := by
  obtain ⟨ins, tks⟩ := s
  simp only at hage
  have hrem : ins.filter (fun i => decide (now < i.created_at)) = [] := by
    rw [List.filter_eq_nil_iff]
    intro i hi
    have := hage i hi
    simp only [decide_eq_true_eq]
    omega
  cases hcase : ins with
  | nil =>
      subst hcase
      simp [deleteInstructionsByCreatedAt, storageGet]
  | cons a l =>
      subst hcase
      simp [deleteInstructionsByCreatedAt, storageGet, hrem]

/-- C6 witness: sweeping two already-created entries at `maxAge = 0`
removes both. -/
theorem c6_sweep_removes_all_witness :
    deleteInstructionsByCreatedAt
        { instructions := [{ index := 1, instruction := "p", created_at := 40 },
                           { index := 2, instruction := "q", created_at := 100 }],
          tasks := [] } 100 0 =
      (2, { instructions := [], tasks := [] }) := by
  exact c6_sweep_removes_all _ 100 (by decide)

/-- C7 counterexample: for the bounding box
`{left: 10, top: 20, width: 100, height: 50}` and offset `(5, 5)` the
code computes the y coordinate `20 + 50 / 2 + 5 = 50`, not the `70`
the claim states. -/
theorem c7_click_point_counterexample :
    clickPoint { left := 10, top := 20, width := 100, height := 50 } 5 5 ≠ (65, 70) := by
  norm_num [clickPoint]

/-- C7 (amended): the click point computed by
`ClickInstruction.Execute` is the bounding-box center shifted by
`(offsetX, offsetY)`; for the box
`{left: 10, top: 20, width: 100, height: 50}` and offset `(5, 5)` it
is `(65, 50)`. -/
theorem c7_click_point_amended (rect : BoundingRect) (ox oy : Rat) :
    clickPoint rect ox oy = ((boxCenter rect).1 + ox, (boxCenter rect).2 + oy) ∧
    clickPoint { left := 10, top := 20, width := 100, height := 50 } 5 5 = (65, 50) := by
  constructor
  · rfl
  · norm_num [clickPoint]

/-- C2: whenever the instruction list contains a Navigate instruction
whose execution succeeds, `executeAll` executes no instruction beyond
it (the executed instructions are a prefix of the instructions up to
and including that Navigate); in particular on
[Navigate(success), Click] the results list is exactly the one
Navigate result and Click is never executed. -/
theorem c2_executor_navigate_stops (pre post : List Instr) (nav : Instr)
    (r : ExecutionResult) (htype : nav.type = "navigate")
    (hout : nav.outcome = .ok r) (hsucc : r.success = true) :
    (∃ tail, pre ++ [nav] = (executeAll (pre ++ nav :: post)).2 ++ tail) ∧
    executeAll [sampleNav, sampleClick] = ([sampleNavResult], [sampleNav]) := by
  refine ⟨?_, by decide⟩
  induction pre with
  | nil =>
      refine ⟨[], ?_⟩
      simp [executeAll, hout, hsucc, htype]
  | cons i pre ih =>
      obtain ⟨tail, htail⟩ := ih
      cases hoc : i.outcome with
      | ok ri =>
          by_cases hc : ri.success = true ∧ i.type = "navigate"
          · exact ⟨pre ++ [nav], by simp [executeAll, hoc, hc]⟩
          · exact ⟨tail, by simp [executeAll, hoc, hc, htail]⟩
      | error e =>
          exact ⟨tail, by simp [executeAll, hoc, htail]⟩

/-- C2 witness: the navigate-stops property at the concrete
[Navigate(success), Click] pair. -/
theorem c2_executor_navigate_stops_witness :
    (∃ tail, [sampleNav] = (executeAll [sampleNav, sampleClick]).2 ++ tail) ∧
    executeAll [sampleNav, sampleClick] = ([sampleNavResult], [sampleNav]) :=
  c2_executor_navigate_stops [] [sampleClick] sampleNav sampleNavResult rfl rfl rfl

/-- C4 counterexample: in the reachable state where
`executeInstruction(1)` ran on a fresh executor with two instructions,
the results array is `[hole, result]`; `length` counts the hole but
`filter` skips it, so success + failure = 1 ≠ 2 = total and the
claimed invariant fails. -/
theorem c4_statistics_counterexample :
    (getStatistics sparseResults).success + (getStatistics sparseResults).failure ≠
      (getStatistics sparseResults).total := by
  decide

/-- C4 (amended): for every hole-free results list — as `executeAll`
produces; an out-of-band `executeInstruction` past the end of the
results array leaves holes, which `length` counts but the aggregates
skip — `getStatistics` satisfies success + failure = total,
successRate = success/total×100 (0 when total = 0), totalDuration =
the sum of the durations, and averageDuration = totalDuration/total
(0 when total = 0). -/
theorem c4_statistics_invariant_amended (rs : List ExecutionResult) :
    (getStatistics (rs.map some)).success + (getStatistics (rs.map some)).failure
        = (getStatistics (rs.map some)).total ∧
    (getStatistics (rs.map some)).successRate =
      (if (getStatistics (rs.map some)).total = 0 then 0
       else ((getStatistics (rs.map some)).success : Rat)
              / ((getStatistics (rs.map some)).total : Rat) * 100) ∧
    (getStatistics (rs.map some)).totalDuration = (rs.map (fun r => r.duration)).sum ∧
    (getStatistics (rs.map some)).averageDuration =
      (if (getStatistics (rs.map some)).total = 0 then 0
       else ((getStatistics (rs.map some)).totalDuration : Rat)
              / ((getStatistics (rs.map some)).total : Rat)) := by
  have hro : (rs.map some).reduceOption = rs := reduceOption_map_some rs
  refine ⟨?_, ?_, ?_, ?_⟩
  · show getSuccessCount (rs.map some) + getFailureCount (rs.map some) = (rs.map some).length
    unfold getSuccessCount getFailureCount
    rw [hro, List.length_map]
    exact length_filter_add_length_filter_not rs (fun r => r.success)
  · by_cases h : (rs.map some).length = 0
    · simp [getStatistics, h]
    · have hpos : 0 < rs.length := by
        rw [List.length_map] at h
        exact Nat.pos_of_ne_zero h
      have hne : rs ≠ [] := List.length_pos.mp hpos
      simp [getStatistics, hpos, hne]
  · show getTotalDuration (rs.map some) = (rs.map (fun r => r.duration)).sum
    unfold getTotalDuration
    rw [hro]
  · by_cases h : (rs.map some).length = 0
    · simp [getStatistics, h]
    · have hpos : 0 < rs.length := by
        rw [List.length_map] at h
        exact Nat.pos_of_ne_zero h
      have hne : rs ≠ [] := List.length_pos.mp hpos
      simp [getStatistics, hpos, hne]

/-- C5: a Wait instruction in `network` mode never returns a failure
result — for every pending-resource observation trace, including
traces in which in-flight requests are still observed when the time
budget runs out, `Execute` completes with success = true. -/
theorem c5_wait_network_never_fails (c : WaitNetworkConfig) (polls : Nat → List Nat)
    (dur : Int) (htype : ¬c.type = "") (hid : ¬c.id = "")
    (hval : c.valueDefined = true) :
    (WaitExecuteNetwork c polls dur).success = true := by
  have hok : (ExecuteWithRetry c.retry (fun a => waitNetworkBody (polls a))).1 = .ok () := by
    unfold ExecuteWithRetry
    rw [retryLoop_ok _ _ _ _ (waitNetworkBody_ok (polls 1))]
  have hv : waitInstrValidate c.type c.id ("network") c.valueDefined = true := by
    unfold waitInstrValidate baseValidate
    simp [htype, hid, hval]
  simp [WaitExecuteNetwork, hv, hok]

/-- C5 witness: a network wait whose polls always observe in-flight
requests until the budget is exhausted still succeeds. -/
theorem c5_wait_network_never_fails_witness :
    (WaitExecuteNetwork { type := "wait", id := "w1", retry := 3, valueDefined := true }
        (fun _ => [2, 2, 1]) 7).success = true :=
  c5_wait_network_never_fails _ _ _ (by decide) (by decide) rfl

/-- C8 (spec-modelled): recording a target twice preserves the first
`connectedAt` while updating `lastSeenAt`; after `remove`,
`isConnected` is false and the stats listing omits the target; and a
`record` step never changes (in particular never regresses) the
`connectedAt` of any already-present record. -/
theorem c8_connection_registry (reg reg1 regA : ConnRegistry) (t tA tB : String)
    (i1 i2 iA n1 n2 nA : Int) (u1 u2 uA : String) (r : ConnectionRecord)
    (habs : assocLookup reg t = none) (hpres : assocLookup regA tA = some r) :
    ((assocLookup (recordConn (recordConn reg t i1 n1 u1) t i2 n2 u2) t).map
        ConnectionRecord.connectedAt = some n1 ∧
     (assocLookup (recordConn (recordConn reg t i1 n1 u1) t i2 n2 u2) t).map
        ConnectionRecord.lastSeenAt = some n2) ∧
    (isConnected (removeConn reg1 t) t = false ∧ t ∉ statsAllConn (removeConn reg1 t)) ∧
    (∃ r2, assocLookup (recordConn regA tB iA nA uA) tA = some r2 ∧
        r2.connectedAt = r.connectedAt) := by
  have h1 : assocLookup (recordConn reg t i1 n1 u1) t =
      some { index := i1, connectedAt := n1, lastSeenAt := n1, url := u1 } := by
    unfold recordConn
    rw [habs, assocLookup_append_of_none _ _ _ habs]
    simp [assocLookup]
  have h2 : assocLookup (recordConn (recordConn reg t i1 n1 u1) t i2 n2 u2) t =
      some { index := i2, connectedAt := n1, lastSeenAt := n2, url := u2 } := by
    generalize hR : recordConn reg t i1 n1 u1 = R1 at h1
    unfold recordConn
    rw [h1]
    exact assocLookup_set_self _ _ _
  refine ⟨⟨by simp [h2], by simp [h2]⟩, ⟨?_, ?_⟩, ?_⟩
  · unfold isConnected removeConn
    rw [assocLookup_filter_self]
    rfl
  · simp [statsAllConn, removeConn, List.mem_map, List.mem_filter]
  · unfold recordConn
    cases hlook : assocLookup regA tB with
    | some rB =>
        by_cases htt : tB = tA
        · subst htt
          rw [hlook] at hpres
          injection hpres with hrb
          subst hrb
          exact ⟨_, assocLookup_set_self _ _ _, rfl⟩
        · exact ⟨r, by rw [assocLookup_set_ne _ _ _ _ htt]; exact hpres, rfl⟩
    | none =>
        by_cases htt : tB = tA
        · subst htt
          rw [hlook] at hpres
          cases hpres
        · exact ⟨r, assocLookup_append_of_some _ _ _ _ hpres, rfl⟩

/-- C8 witness: the registry scenario at concrete targets and
timestamps. -/
theorem c8_connection_registry_witness :
    ((assocLookup (recordConn (recordConn [] "t" 1 10 "u1") "t" 2 20 "u2") "t").map
        ConnectionRecord.connectedAt = some 10 ∧
     (assocLookup (recordConn (recordConn [] "t" 1 10 "u1") "t" 2 20 "u2") "t").map
        ConnectionRecord.lastSeenAt = some 20) ∧
    (isConnected (removeConn [("t", { index := 1, connectedAt := 3, lastSeenAt := 4, url := "u" })] "t") "t" = false ∧
     "t" ∉ statsAllConn (removeConn [("t", { index := 1, connectedAt := 3, lastSeenAt := 4, url := "u" })] "t")) ∧
    (∃ r2, assocLookup
        (recordConn [("a", { index := 0, connectedAt := 5, lastSeenAt := 6, url := "ua" })] "b" 3 30 "ub") "a" = some r2 ∧
      r2.connectedAt =
        ({ index := 0, connectedAt := 5, lastSeenAt := 6, url := "ua" } : ConnectionRecord).connectedAt) :=
  c8_connection_registry []
    [("t", { index := 1, connectedAt := 3, lastSeenAt := 4, url := "u" })]
    [("a", { index := 0, connectedAt := 5, lastSeenAt := 6, url := "ua" })]
    "t" "a" "b" 1 2 3 10 20 30 "u1" "u2" "ub" _ rfl rfl

/-- C9: `executeInstruction` at an index outside [0, instructions
length) returns null and leaves the executor state — instructions,
results, isRunning, currentIndex — exactly as it was. -/
theorem c9_execute_instruction_out_of_range (s : ExecutorState) (index : Int)
    (h : index < 0 ∨ index ≥ (s.instructions.length : Int)) :
    executeInstruction s index = (none, s) := by
  unfold executeInstruction
  rw [if_pos h]

/-- C9 witness: index 5 on an executor with no instructions. -/
theorem c9_execute_instruction_out_of_range_witness :
    executeInstruction
        { instructions := [], results := [], isRunning := false, currentIndex := 0 } 5 =
      (none, { instructions := [], results := [], isRunning := false, currentIndex := 0 }) :=
  c9_execute_instruction_out_of_range _ _ (Or.inr (by decide))

/-- Looking up a freshly set element after its relationship pass: when
the element does not link to its own name, the stored binding is the
element itself. -/
lemma getElement_setElement_self (s : ElementManagerState) (e : ElementObj)
    (h1 : ¬e.name = "") (h2 : ¬selfLinked e) :
    getElement (setElement s e) e.name = some e := by
  unfold selfLinked at h2
  push_neg at h2
  obtain ⟨hp, hc, hr⟩ := h2
  unfold setElement getElement
  rw [if_neg h1]
  show assocLookup (updateRelationships (assocSet s.elements e.name e) e) e.name = some e
  simp only [updateRelationships]
  rw [assocLookup_foldl_update _ _ _ _ hr, assocLookup_foldl_update _ _ _ _ hc]
  by_cases hpe : e.parentName = ""
  · rw [if_pos hpe]
    exact assocLookup_set_self _ _ _
  · rw [if_neg hpe, assocLookup_update_ne _ _ _ _ hp]
    exact assocLookup_set_self _ _ _

/-- C10: `setElement` on an element with an empty name changes nothing
(neither the element map nor the relationship map); an element with a
non-empty name (and no link to its own name) is stored under that
name, and a second `setElement` under the same name overwrites the
first (last write wins). -/
theorem c10_set_element (s s2 s3 : ElementManagerState) (e0 e e1 e2 : ElementObj)
    (h0 : e0.name = "") (h1 : ¬e.name = "") (h2 : ¬selfLinked e)
    (_h3 : e1.name = e2.name) (h4 : ¬e2.name = "") (h5 : ¬selfLinked e2) :
    setElement s e0 = s ∧
    getElement (setElement s2 e) e.name = some e ∧
    getElement (setElement (setElement s3 e1) e2) e2.name = some e2 := by
  refine ⟨?_, getElement_setElement_self _ _ h1 h2, getElement_setElement_self _ _ h4 h5⟩
  unfold setElement
  rw [if_pos h0]

/-- C10 witness: the nameless element is a no-op; "btn" is stored and
then overwritten by the second write. -/
theorem c10_set_element_witness :
    setElement { elements := [], relationships := [] }
        { name := "", description := "d", selector := "s", selectorType := "css",
          parentName := "", childrenNames := [], relatedNames := [] } =
      { elements := [], relationships := [] } ∧
    getElement (setElement { elements := [], relationships := [] }
        { name := "btn", description := "d", selector := "s", selectorType := "css",
          parentName := "", childrenNames := [], relatedNames := [] }) "btn" =
      some { name := "btn", description := "d", selector := "s", selectorType := "css",
             parentName := "", childrenNames := [], relatedNames := [] } ∧
    getElement (setElement (setElement { elements := [], relationships := [] }
        { name := "btn", description := "old", selector := "s1", selectorType := "css",
          parentName := "", childrenNames := [], relatedNames := [] })
        { name := "btn", description := "new", selector := "s2", selectorType := "css",
          parentName := "", childrenNames := [], relatedNames := [] }) "btn" =
      some { name := "btn", description := "new", selector := "s2", selectorType := "css",
             parentName := "", childrenNames := [], relatedNames := [] } :=
  c10_set_element
    { elements := [], relationships := [] }
    { elements := [], relationships := [] }
    { elements := [], relationships := [] }
    { name := "", description := "d", selector := "s", selectorType := "css",
      parentName := "", childrenNames := [], relatedNames := [] }
    { name := "btn", description := "d", selector := "s", selectorType := "css",
      parentName := "", childrenNames := [], relatedNames := [] }
    { name := "btn", description := "old", selector := "s1", selectorType := "css",
      parentName := "", childrenNames := [], relatedNames := [] }
    { name := "btn", description := "new", selector := "s2", selectorType := "css",
      parentName := "", childrenNames := [], relatedNames := [] }
    rfl (by decide) (by decide) rfl (by decide) (by decide)
